import Mathlib

/-!
Shallow embedding of the command-processing core of a small Redis clone
(`src/main.rs`).  The keyspace `HashMap<String, RedisValue>` is modelled as an
association list with unique-key-preserving operations, `VecDeque<String>` as
`List String` (front = head), `SystemTime` instants as natural numbers of
milliseconds, and the oneshot waiter registry
`HashMap<String, VecDeque<Sender<()>>>` as an association list from key to a
FIFO list of abstract waiter identifiers.  Rust code that can panic
(`unwrap`, out-of-bounds indexing) is embedded as `Option`-valued functions,
`none` marking the panic.
-/

/-- Mirror of `enum RedisType`: a key holds either a list or a string value. -/
inductive RedisType where
  /-- `RedisType::List(VecDeque<String>)` -/
  | List : List String → RedisType
  /-- `RedisType::Val(String)` -/
  | Val : String → RedisType
deriving DecidableEq, Repr

/-- Mirror of `struct RedisValue`: the stored data for a key, together with
its creation instant (ms) and optional TTL (ms). -/
structure RedisValue where
  /-- `creation_time: SystemTime`, as milliseconds -/
  creation_time : Nat
  /-- `data: RedisType` -/
  data : RedisType
  /-- `ttl: Option<u64>` in milliseconds -/
  ttl : Option Nat
deriving DecidableEq, Repr

/-- The keyspace `HashMap<String, RedisValue>` as an association list. -/
abbrev Store := List (String × RedisValue)

/-- The waiter registry `HashMap<String, VecDeque<Sender<()>>>`; each waiter
(oneshot sender) is identified by an abstract `Nat` id. -/
abbrev WStore := List (String × List Nat)

/-- `HashMap::get`: the value stored under `k`, if any. -/
def storeGet {β : Type} (s : List (String × β)) (k : String) : Option β :=
  (s.find? (fun p => p.1 == k)).map (fun p => p.2)

/-- `HashMap::insert` / in-place mutation through `get_mut` or `entry`:
replace the binding of `k` (first occurrence) or append a fresh one. -/
def storeInsert {β : Type} (s : List (String × β)) (k : String) (v : β) :
    List (String × β) :=
  match s with
  | [] => [(k, v)]
  | p :: t => if p.1 == k then (k, v) :: t else p :: storeInsert t k v

/-- `HashMap::remove`: drop the binding of `k`. -/
def storeRemove {β : Type} (s : List (String × β)) (k : String) :
    List (String × β) :=
  s.filter (fun p => !(p.1 == k))

/-- RESP bulk-string encoding `$<len>\r\n<bytes>\r\n` (the source uses the
byte length `val.len()`). -/
def bulkStr (v : String) : String :=
  "$" ++ toString v.utf8ByteSize ++ "\r\n" ++ v ++ "\r\n"

/-- RESP array encoding, as built by the fold in the `lrange`/`lpop` arms:
`*<n>\r\n` followed by the bulk encoding of each element. -/
def arrayStr (vs : List String) : String :=
  vs.foldl (fun acc x => acc ++ "$" ++ toString x.utf8ByteSize ++ "\r\n" ++ x ++ "\r\n")
    ("*" ++ toString vs.length ++ "\r\n")

/-- The `WRONGTYPE` simple-error wire reply. -/
def wrongTypeReply : String :=
  "-WRONGTYPE Operation against a key holding the wrong kind of value\r\n"

/-- The nil bulk string wire reply. -/
def nilReply : String := "$-1\r\n"

/-- The `"echo"` arm (main.rs line 198): the reply is the SIMPLE string
`+<arg>\r\n`, not a bulk string. -/
def echoReply (a : String) : String := "+" ++ a ++ "\r\n"

/-- The `"get"` arm (main.rs lines 219-248).  `now` is the instant
`SystemTime::now()` observed inside the critical section.  Returns the
updated keyspace and the wire reply.  On passive expiry
(`ttl` present and `now > creation_time + ttl`) the entry is removed and the
nil bulk string is returned, all under the same lock. -/
def getCmd (now : Nat) (s : Store) (k : String) : Store × String :=
  match storeGet s k with
  | some x =>
    let key_expired := x.ttl.isSome && decide (x.creation_time + x.ttl.getD 0 < now)
    if key_expired then
      (storeRemove s k, nilReply)
    else
      match x.data with
      | RedisType.Val val =>
        (s, "$" ++ toString val.utf8ByteSize ++ "\r\n" ++ val ++ "\r\n")
      | RedisType.List _ => (s, wrongTypeReply)
  | none => (s, nilReply)

/-- The `"set"` arm's keyspace mutation (main.rs lines 209-216): overwrite
`k` with a string value, fresh creation time, and the given TTL. -/
def setStore (now : Nat) (s : Store) (k v : String) (ttl_ms : Option Nat) : Store :=
  storeInsert s k (RedisValue.mk now (RedisType.Val v) ttl_ms)

/-- The `"ttl"` arm (main.rs lines 250-269): remaining milliseconds clamped
at zero (`duration_since(..).unwrap_or_default()`), `-1` for a missing key or
a key without TTL, as a simple-string reply. -/
def ttlCmd (now : Nat) (s : Store) (k : String) : String :=
  let returned_value :=
    match storeGet s k with
    | none => "-1"
    | some x =>
      match x.ttl with
      | none => "-1"
      | some ttl => toString (x.creation_time + ttl - now)
  "+" ++ returned_value ++ "\r\n"

/-- The `"dbsize"` arm (main.rs lines 271-274): number of stored entries. -/
def dbsizeCmd (s : Store) : String := ":" ++ toString s.length ++ "\r\n"

/-- The `"rpush"` arm (main.rs lines 275-317).  `vs` is `parsed_command[2..]`.
First `entry(k).or_insert_with(empty list)` runs — inserting an empty list
for an absent key BEFORE the arity check — then the arity check
(`parsed_command.len() <= 2`, i.e. `vs = []`) and the append.  The waiter
registry is returned untouched together with the (always empty) list of
fired waiter ids: the rpush arm never consults `oneshot_store`. -/
def rpushCmd (now : Nat) (s : Store) (w : WStore) (k : String) (vs : List String) :
    Store × WStore × List Nat × String :=
  let s1 := match storeGet s k with
    | none => storeInsert s k (RedisValue.mk now (RedisType.List []) none)
    | some _ => s
  match storeGet s1 k with
  | some rv =>
    match rv.data with
    | RedisType.List list =>
      if vs.isEmpty then
        (s1, w, [], "-ERR wrong number of arguments for command\r\n")
      else
        let list2 := list ++ vs
        (storeInsert s1 k (RedisValue.mk rv.creation_time (RedisType.List list2) rv.ttl),
          w, [], ":" ++ toString list2.length ++ "\r\n")
    | RedisType.Val _ => (s1, w, [], wrongTypeReply)
  | none => (s1, w, [], nilReply)  -- unreachable: the entry was just created

/-- The `"lpush"` arm (main.rs lines 319-368).  Same `entry(..).or_insert_with`
followed by the arity check; each element of `vs` is pushed to the FRONT in
argument order (`for x in parsed_command[2..] { list.push_front(x) }`), and
then — still inside the success branch and under both locks — at most ONE
waiter is dequeued from the front of `k`'s queue and fired.  The third
component is the list of fired waiter ids. -/
def lpushCmd (now : Nat) (s : Store) (w : WStore) (k : String) (vs : List String) :
    Store × WStore × List Nat × String :=
  let s1 := match storeGet s k with
    | none => storeInsert s k (RedisValue.mk now (RedisType.List []) none)
    | some _ => s
  match storeGet s1 k with
  | some rv =>
    match rv.data with
    | RedisType.List list =>
      if vs.isEmpty then
        (s1, w, [], "-ERR wrong number of arguments for command\r\n")
      else
        let list2 := vs.foldl (fun acc x => x :: acc) list
        let fired_w : List Nat × WStore :=
          match storeGet w k with
          | some queue =>
            match queue with
            | [] => ([], w)
            | id :: rest => ([id], storeInsert w k rest)
          | none => ([], w)
        (storeInsert s1 k (RedisValue.mk rv.creation_time (RedisType.List list2) rv.ttl),
          fired_w.2, fired_w.1, ":" ++ toString list2.length ++ "\r\n")
    | RedisType.Val _ => (s1, w, [], wrongTypeReply)
  | none => (s1, w, [], nilReply)  -- unreachable: the entry was just created

/-- The index arithmetic of `fn lrange` (main.rs lines 100-124) on an
already-fetched list, with the start/stop arguments as integers (a parsed
`isize`): add the length once to a negative index, clamp `start` up to 0 and
`stop` down to `length-1`, empty when `start > stop`, else map
`(start..=stop)` through in-bounds indexing. -/
def lrangeSlice (L : List String) (s e : Int) : List String :=
  let list_length : Int := L.length
  let s1 := if s < 0 then s + list_length else s
  let e1 := if e < 0 then e + list_length else e
  let start_index := max s1 0
  let stop_index := min e1 (list_length - 1)
  if start_index > stop_index then []
  else
    (List.range (stop_index.toNat - start_index.toNat + 1)).map
      (fun x => L.getD (start_index.toNat + x) "")

/-- `fn lrange` (main.rs lines 83-127) at the keyspace level: a missing key
yields `Ok []`, a string-typed key yields the `WRONGTYPE` error, a list is
sliced by `lrangeSlice`. -/
def lrangeCmd (st : Store) (k : String) (s e : Int) :
    Except String (List String) :=
  match storeGet st k with
  | none => Except.ok []
  | some rv =>
    match rv.data with
    | RedisType.List list => Except.ok (lrangeSlice list s e)
    | RedisType.Val _ =>
      Except.error "WRONGTYPE Operation against a key holding the wrong kind of value"

/-- The `"lrange"` arm's reply encoding (main.rs lines 370-383). -/
def lrangeReply (res : Except String (List String)) : String :=
  match res with
  | Except.ok output_array => arrayStr output_array
  | Except.error err => "-" ++ err ++ "\r\n"

/-- The `"llen"` arm (main.rs lines 384-396): `:0` for a missing key, the
list length for a list, `WRONGTYPE` otherwise. -/
def llenCmd (s : Store) (k : String) : String :=
  match storeGet s k with
  | none => ":0\r\n"
  | some rv =>
    match rv.data with
    | RedisType.List list => ":" ++ toString list.length ++ "\r\n"
    | RedisType.Val _ => wrongTypeReply

/-- The `"lpop"` arm after count parsing (main.rs lines 403-436), with
`n = times_to_pop`.  Pops `min n (length)` heads
(`(1..=times_to_pop).map_while(|_| list.pop_front())`); if the list is now
empty the key is removed from the store inside the same critical section.
Reply: nil when nothing popped, a plain bulk string when exactly one element
popped, a RESP array otherwise. -/
def lpopCore (s : Store) (k : String) (n : Nat) : Store × String :=
  match storeGet s k with
  | some rv =>
    match rv.data with
    | RedisType.List list =>
      let output_array := list.take n
      let rest := list.drop n
      let s2 :=
        if rest.isEmpty then storeRemove s k
        else storeInsert s k (RedisValue.mk rv.creation_time (RedisType.List rest) rv.ttl)
      let reply :=
        match output_array with
        | [] => nilReply
        | [x] => "$" ++ toString x.utf8ByteSize ++ "\r\n" ++ x ++ "\r\n"
        | _ => arrayStr output_array
      (s2, reply)
    | RedisType.Val _ => (s, wrongTypeReply)
  | none => (s, nilReply)

/-- The constant string the `"lbpop"` slow path writes after its oneshot
channel fires (main.rs line 491): a placeholder, NOT the popped element. -/
def lbpopResumeReply : String := "$1\r\n"

/-- The `"lbpop"` arm (main.rs lines 438-493).  Fast path: if `k` holds a
list, `list.pop_front().unwrap()` — `none` (panic) when that stored list is
empty — and the key is NOT removed even when the pop empties the list (the
removal at lines 451-455 is commented out).  Slow path (key absent): append
a fresh oneshot sender, identified by `freshId`, to the back of `k`'s waiter
queue and suspend; the reply component is `none`, and after the waiter fires
the session writes `lbpopResumeReply`. -/
def lbpopCmd (s : Store) (w : WStore) (k : String) (freshId : Nat) :
    Option (Store × WStore × Option String) :=
  match storeGet s k with
  | some rv =>
    match rv.data with
    | RedisType.List list =>
      match list with
      | [] => none  -- `pop_front().unwrap()` panics
      | val :: rest =>
        some (storeInsert s k (RedisValue.mk rv.creation_time (RedisType.List rest) rv.ttl),
          w, some ("$" ++ toString val.utf8ByteSize ++ "\r\n" ++ val ++ "\r\n"))
    | RedisType.Val _ => some (s, w, some wrongTypeReply)
  | none =>
    let queue := (storeGet w k).getD []
    some (s, storeInsert w k (queue ++ [freshId]), none)

/-- `to_lowercase()` on the command name, written over the character list so
that it evaluates by kernel reduction (extensionally `String.toLower` on the
ASCII command names involved). -/
def toLowerStr (s : String) : String := String.mk (s.data.map Char.toLower)

/-- Accumulate decimal digits; `none` at the first non-digit character. -/
def digitsToNat (acc : Nat) : List Char → Option Nat
  | [] => some acc
  | c :: cs => if c.isDigit then digitsToNat (acc * 10 + (c.toNat - 48)) cs else none

/-- Rust's `str::parse::<uN>()`: an optional `+` sign followed by at least
one decimal digit (overflow of the fixed-width type is not modelled; no
claim exercises it). -/
def parseUNat (s : String) : Option Nat :=
  let ds := match s.data with
    | '+' :: rest => rest
    | l => l
  if ds.isEmpty then none else digitsToNat 0 ds

/-- Rust's `str::parse::<isize>()`: an optional sign followed by at least
one decimal digit. -/
def parseIsize (s : String) : Option Int :=
  match s.data with
  | '-' :: rest =>
    if rest.isEmpty then none
    else (digitsToNat 0 rest).map (fun n => -(n : Int))
  | '+' :: rest =>
    if rest.isEmpty then none else (digitsToNat 0 rest).map (fun n => (n : Int))
  | l => if l.isEmpty then none else (digitsToNat 0 l).map (fun n => (n : Int))

/-- One iteration of the session loop of `process` (main.rs lines 196-505)
on an already-parsed command frame: the dispatch `match` on the lowercased
command name.  `now` is the instant observed by any `SystemTime::now()` call
inside the iteration and `freshId` identifies the oneshot channel a blocking
pop would allocate.  The result is `none` exactly where the Rust code panics
(out-of-bounds `parsed_command[i]`, a failing `parse::<uN>().unwrap()`, or
the `unwrap` of `pop_front` on a stored empty list); for a blocked `lbpop`
the reply recorded is the placeholder the session writes after its waiter
fires.  (Rust's integer `parse` also accepts a leading `+`, which
`String.toNat?` / `String.toInt?` do not; no claim exercises that.) -/
def process1 (now freshId : Nat) (st : Store × WStore) (cmd : List String) :
    Option (Store × WStore × String) :=
  let s := st.1
  let w := st.2
  match cmd with
  | [] => none  -- `parsed_command[0]` panics
  | c0 :: args =>
    match toLowerStr c0 with
    | "ping" => some (s, w, "+PONG\r\n")
    | "echo" =>
      match args with
      | a :: _ => some (s, w, echoReply a)
      | [] => none  -- `parsed_command[1]` panics
    | "client" => some (s, w, "+OK\r\n+OK\r\n")
    | "set" =>
      -- the TTL token is parsed first; `parse::<u64>().unwrap()` panics
      let ttl_ms : Option (Option Nat) :=
        if 5 ≤ cmd.length then
          match args.get? 3 with
          | some tok => (parseUNat tok).map some
          | none => none
        else some none
      match ttl_ms with
      | none => none
      | some ttl =>
        match args with
        | k :: v :: _ => some (setStore now s k v ttl, w, "+OK\r\n")
        | _ => none  -- `parsed_command[1]` or `[2]` panics
    | "get" =>
      match args with
      | k :: _ =>
        let r := getCmd now s k
        some (r.1, w, r.2)
      | [] => none
    | "ttl" =>
      match args with
      | k :: _ => some (s, w, ttlCmd now s k)
      | [] => none
    | "dbsize" => some (s, w, dbsizeCmd s)
    | "rpush" =>
      match args with
      | k :: vs =>
        let r := rpushCmd now s w k vs
        some (r.1, r.2.1, r.2.2.2)
      | [] => none  -- `parsed_command[1]` panics
    | "lpush" =>
      match args with
      | k :: vs =>
        let r := lpushCmd now s w k vs
        some (r.1, r.2.1, r.2.2.2)
      | [] => none
    | "lrange" =>
      -- `fn lrange` indexes `parsed_command[2]`/`[3]` only after finding a
      -- list at the key, and a parse failure falls back to the list length
      match args with
      | k :: idx =>
        match storeGet s k with
        | none => some (s, w, lrangeReply (Except.ok []))
        | some rv =>
          match rv.data with
          | RedisType.Val _ =>
            some (s, w, lrangeReply (Except.error
              "WRONGTYPE Operation against a key holding the wrong kind of value"))
          | RedisType.List list =>
            match idx with
            | sTok :: eTok :: _ =>
              let si := (parseIsize sTok).getD (list.length : Int)
              let ei := (parseIsize eTok).getD (list.length : Int)
              some (s, w, lrangeReply (Except.ok (lrangeSlice list si ei)))
            | _ => none  -- `parsed_command[2]` or `[3]` panics
      | [] => none
    | "llen" =>
      match args with
      | k :: _ => some (s, w, llenCmd s k)
      | [] => none
    | "lpop" =>
      -- `times_to_pop = parsed_command.get(2).map_or(1, |x| x.parse::<u32>().unwrap())`
      let times_to_pop : Option Nat :=
        match args.get? 1 with
        | none => some 1
        | some tok => parseUNat tok
      match times_to_pop with
      | none => none
      | some n =>
        match args with
        | k :: _ =>
          let r := lpopCore s k n
          some (r.1, w, r.2)
        | [] => none
    | "lbpop" =>
      match args with
      | k :: _ =>
        (lbpopCmd s w k freshId).map
          (fun r => (r.1, r.2.1, (r.2.2).getD lbpopResumeReply))
      | [] => none
    | _ =>
      let argStr := args.foldl (fun acc x => acc ++ "`" ++ x ++ "`, ") ""
      some (s, w, "-ERR unknown command `" ++ c0 ++ "`, with args beginning with: "
        ++ argStr ++ "\r\n")

/-- Iterated `getCmd` on the same key at a list of instants, threading the
store and collecting the wire replies. -/
def getSeq (nows : List Nat) (s : Store) (k : String) : Store × List String :=
  match nows with
  | [] => (s, [])
  | n :: rest =>
    let r := getCmd n s k
    let r2 := getSeq rest r.1 k
    (r2.1, r.2 :: r2.2)

/-- Iterated `lpopCore` on the same key with a list of pop counts. -/
def foldLpop (s : Store) (k : String) (cs : List Nat) : Store :=
  cs.foldl (fun st c => (lpopCore st k c).1) s

/-! ## Association-list lemmas -/

lemma storeGet_cons {β : Type} (p : String × β) (t : List (String × β)) (k : String) :
    storeGet (p :: t) k = if p.1 == k then some p.2 else storeGet t k := by
  by_cases h : p.1 == k <;> simp [storeGet, List.find?, h]

lemma storeGet_insert_self {β : Type} (s : List (String × β)) (k : String) (v : β) :
    storeGet (storeInsert s k v) k = some v := by
  induction s with
  | nil => simp [storeGet, storeInsert, List.find?]
  | cons p t ih =>
    by_cases h : p.1 == k
    · simp [storeInsert, h, storeGet, List.find?]
    · simp only [storeInsert, h, if_false, Bool.false_eq_true, storeGet_cons]
      simpa [h] using ih

lemma storeGet_remove_self {β : Type} (s : List (String × β)) (k : String) :
    storeGet (storeRemove s k) k = none := by
  simp only [storeGet, storeRemove, Option.map_eq_none', List.find?_eq_none]
  intro p hp
  have := List.of_mem_filter hp
  simpa using this

lemma filter_key_eq_nil_of_get_none {β : Type} {s : List (String × β)} {k : String}
    (h : storeGet s k = none) : s.filter (fun p => p.1 == k) = [] := by
  rw [List.filter_eq_nil_iff]
  simp only [storeGet, Option.map_eq_none', List.find?_eq_none] at h
  exact h

/-! ## C10 — push-before-arity-check leaves an empty list stored -/

/-- C10: `RPUSH k` / `LPUSH k` with no value arguments on an absent key
reply with the arity error, yet the `entry(..).or_insert_with` that ran
before the arity check leaves a fresh empty-list entry for `k` in the
keyspace. -/
theorem push_arity_error_still_inserts_key (now : Nat) (s : Store) (w : WStore)
    (k : String) (h : storeGet s k = none) :
    ((rpushCmd now s w k []).2.2.2 = "-ERR wrong number of arguments for command\r\n"
      ∧ storeGet (rpushCmd now s w k []).1 k
          = some (RedisValue.mk now (RedisType.List []) none))
    ∧ ((lpushCmd now s w k []).2.2.2 = "-ERR wrong number of arguments for command\r\n"
      ∧ storeGet (lpushCmd now s w k []).1 k
          = some (RedisValue.mk now (RedisType.List []) none)) := by
  refine ⟨⟨?_, ?_⟩, ⟨?_, ?_⟩⟩ <;>
    simp [rpushCmd, lpushCmd, h, storeGet_insert_self]

/-- Witness for `push_arity_error_still_inserts_key` at the empty store. -/
theorem push_arity_error_still_inserts_key_witness :
    (rpushCmd 3 [] [] "k" []).2.2.2 = "-ERR wrong number of arguments for command\r\n"
    ∧ storeGet (rpushCmd 3 [] [] "k" []).1 "k"
        = some (RedisValue.mk 3 (RedisType.List []) none)
    ∧ (lpushCmd 3 [] [] "k" []).2.2.2 = "-ERR wrong number of arguments for command\r\n"
    ∧ storeGet (lpushCmd 3 [] [] "k" []).1 "k"
        = some (RedisValue.mk 3 (RedisType.List []) none) := by
  have h := push_arity_error_still_inserts_key 3 [] [] "k" (by decide)
  exact ⟨h.1.1, h.1.2, h.2.1, h.2.2⟩

/-! ## C9 — ECHO replies with a simple string, not a bulk string -/

/-- C9 counterexample: for the argument `hello` the `echo` arm replies
`+hello\r\n`, which is not the bulk-string encoding `$5\r\nhello\r\n` the
claim requires. -/
theorem echo_reply_not_bulk_cex :
    echoReply "hello" = "+hello\r\n" ∧ echoReply "hello" ≠ "$5\r\nhello\r\n" := by
  decide

/-- C9 amended: for every argument `a`, the dispatched ECHO command replies
with the SIMPLE-string encoding `+a\r\n` (never a bulk string), leaving the
state unchanged. -/
theorem echo_replies_simple_string (now freshId : Nat) (s : Store) (w : WStore)
    (a : String) (rest : List String) :
    process1 now freshId (s, w) ("echo" :: a :: rest) = some (s, w, "+" ++ a ++ "\r\n") :=
  rfl

/-! ## C3 — LBPOP fast path never removes the drained key -/

/-- C3 counterexample: `LBPOP k` on a one-element list pops and returns the
element, but the key stays in the keyspace mapped to the EMPTY list (the
removal in main.rs lines 451-455 is commented out), contradicting the
claimed delete-iff-empty behaviour. -/
theorem lbpop_fast_path_keeps_drained_key :
    lbpopCmd [("k", RedisValue.mk 0 (RedisType.List ["v"]) none)] [] "k" 0
      = some ([("k", RedisValue.mk 0 (RedisType.List []) none)], [], some "$1\r\nv\r\n")
    ∧ storeGet [("k", RedisValue.mk 0 (RedisType.List []) none)] "k" ≠ none := by
  decide

/-- C3 amended: the LBPOP fast path on a key holding a non-empty list pops
the head and returns its bulk-string encoding, but NEVER removes the key:
the entry stays bound to the tail, so an empty stored list remains when the
pop drained it. -/
theorem lbpop_fast_path_pops_without_removal (s : Store) (w : WStore) (k : String)
    (freshId : Nat) (rv : RedisValue) (x : String) (rest : List String)
    (h : storeGet s k = some rv) (hd : rv.data = RedisType.List (x :: rest)) :
    lbpopCmd s w k freshId
      = some (storeInsert s k (RedisValue.mk rv.creation_time (RedisType.List rest) rv.ttl),
          w, some ("$" ++ toString x.utf8ByteSize ++ "\r\n" ++ x ++ "\r\n"))
    ∧ storeGet (storeInsert s k (RedisValue.mk rv.creation_time (RedisType.List rest) rv.ttl)) k
      = some (RedisValue.mk rv.creation_time (RedisType.List rest) rv.ttl) :=
  ⟨by simp [lbpopCmd, h, hd], storeGet_insert_self s k _⟩

/-- Witness for `lbpop_fast_path_pops_without_removal` on a singleton list. -/
theorem lbpop_fast_path_pops_without_removal_witness :
    lbpopCmd [("k", RedisValue.mk 0 (RedisType.List ["v"]) none)] [] "k" 9
      = some (storeInsert [("k", RedisValue.mk 0 (RedisType.List ["v"]) none)] "k"
          (RedisValue.mk 0 (RedisType.List []) none),
        [], some ("$" ++ toString "v".utf8ByteSize ++ "\r\n" ++ "v" ++ "\r\n"))
    ∧ storeGet (storeInsert [("k", RedisValue.mk 0 (RedisType.List ["v"]) none)] "k"
          (RedisValue.mk 0 (RedisType.List []) none)) "k"
      = some (RedisValue.mk 0 (RedisType.List []) none) :=
  lbpop_fast_path_pops_without_removal
    [("k", RedisValue.mk 0 (RedisType.List ["v"]) none)] [] "k" 9
    (RedisValue.mk 0 (RedisType.List ["v"]) none) "v" [] (by decide) rfl

/-! ## C4 — LPOP with an explicit count still returns a bulk string when one
element pops -/

/-- C4 counterexample: with the list at `list` down to the single element
`d`, the dispatched `LPOP list 5` replies with the plain bulk string
`$1\r\nd\r\n`, not the one-element array `*1\r\n$1\r\nd\r\n` the claim
requires. -/
theorem lpop_count_single_returns_bulk_cex :
    process1 0 0 ([("list", RedisValue.mk 0 (RedisType.List ["d"]) none)], [])
        ["lpop", "list", "5"]
      = some ([], [], "$1\r\nd\r\n")
    ∧ "$1\r\nd\r\n" ≠ "*1\r\n$1\r\nd\r\n" := by
  decide

/-- C4 amended: for an existing list `x :: rest` and count `c ≥ 1`, LPOP
replies with the plain bulk string of `x` whenever exactly one element is
popped (`c = 1` or the list is a singleton), and with a RESP array of the
popped heads only when at least two elements pop. -/
theorem lpop_reply_shape (s : Store) (k : String) (rv : RedisValue) (x : String)
    (rest : List String) (c : Nat)
    (h : storeGet s k = some rv) (hd : rv.data = RedisType.List (x :: rest)) :
    (1 ≤ c → (c = 1 ∨ rest = []) →
      (lpopCore s k c).2 = "$" ++ toString x.utf8ByteSize ++ "\r\n" ++ x ++ "\r\n")
    ∧ (2 ≤ c → rest ≠ [] → (lpopCore s k c).2 = arrayStr ((x :: rest).take c)) := by
  constructor
  · intro hc hone
    rcases hone with rfl | rfl
    · simp [lpopCore, h, hd]
    · obtain ⟨m, rfl⟩ : ∃ m, c = m + 1 := ⟨c - 1, by omega⟩
      simp [lpopCore, h, hd, List.take_succ_cons]
  · intro hc hr
    obtain ⟨m, rfl⟩ : ∃ m, c = m + 2 := ⟨c - 2, by omega⟩
    obtain ⟨y, t, rfl⟩ : ∃ y t, rest = y :: t := by
      cases rest with
      | nil => exact absurd rfl hr
      | cons y t => exact ⟨y, t, rfl⟩
    simp [lpopCore, h, hd, List.take_succ_cons]

/-- Witness for `lpop_reply_shape`: `LPOP list 5` on the singleton `["d"]`. -/
theorem lpop_reply_shape_witness :
    (lpopCore [("list", RedisValue.mk 0 (RedisType.List ["d"]) none)] "list" 5).2
      = "$1\r\nd\r\n" :=
  ((lpop_reply_shape [("list", RedisValue.mk 0 (RedisType.List ["d"]) none)] "list"
      (RedisValue.mk 0 (RedisType.List ["d"]) none) "d" [] 5 (by decide) rfl).1
    (by decide) (Or.inr rfl)).trans (by decide)

/-! ## C2 — the LBPOP rendezvous returns a placeholder (code bug) -/

/-- C2 evaluated at the failing scenario (spec scenario S6).  Session A's
`LBPOP q` on the empty keyspace takes the slow path and registers waiter 0;
session B's `LPUSH q hello` stores the element, fires waiter 0 and replies
`:1`; but A's resumed reply is the hard-coded placeholder `$1\r\n` — not
`$5\r\nhello\r\n` — and the element is never popped, so B's `LLEN q` then
returns `:1`, not `:0`. -/
theorem lbpop_rendezvous_returns_placeholder :
    lbpopCmd [] [] "q" 0 = some ([], [("q", [0])], none)
    ∧ lpushCmd 5 [] [("q", [0])] "q" ["hello"]
      = ([("q", RedisValue.mk 5 (RedisType.List ["hello"]) none)], [("q", [])], [0], ":1\r\n")
    ∧ lbpopResumeReply = "$1\r\n"
    ∧ lbpopResumeReply ≠ "$5\r\nhello\r\n"
    ∧ llenCmd [("q", RedisValue.mk 5 (RedisType.List ["hello"]) none)] "q" = ":1\r\n"
    ∧ llenCmd [("q", RedisValue.mk 5 (RedisType.List ["hello"]) none)] "q" ≠ ":0\r\n" :=
  ⟨by decide, by decide, by decide, by decide, by decide, by decide⟩

/-! ## C1 — waiter firing discipline of the push commands -/

/-- C1 counterexample: a successful `RPUSH k v` (reply `:1`) performed while
one waiter is queued on `k` fires NO waiter, although the claim requires
`min(m, n) = min 1 1 = 1` waiters to be dequeued and fired. -/
theorem rpush_pending_waiter_not_fired :
    (rpushCmd 0 [] [("k", [7])] "k" ["v"]).2.2.2 = ":1\r\n"
    ∧ (rpushCmd 0 [] [("k", [7])] "k" ["v"]).2.2.1 = []
    ∧ ([] : List Nat).length ≠ min 1 [(7 : Nat)].length := by
  decide

/-- C1 amended: within the critical section that completes the push, RPUSH
never dequeues or fires any waiter and leaves the registry untouched, while
a successful LPUSH of `m ≥ 1` elements dequeues and fires exactly
`min 1 n` waiters — the front one of the FIFO queue — independently of `m`
(the queue entry for `k` loses exactly its front element). -/
theorem push_waiter_firing_discipline (now : Nat) (s : Store) (w : WStore)
    (k : String) (vs : List String) (hvs : vs ≠ [])
    (hk : ∀ rv, storeGet s k = some rv → ∃ L, rv.data = RedisType.List L) :
    (rpushCmd now s w k vs).2.1 = w
    ∧ (rpushCmd now s w k vs).2.2.1 = []
    ∧ (lpushCmd now s w k vs).2.2.1 = ((storeGet w k).getD []).take 1
    ∧ (∀ q, storeGet w k = some q →
        storeGet (lpushCmd now s w k vs).2.1 k = some (q.drop 1)) := by
  have hvs' : vs.isEmpty = false := by
    cases vs with
    | nil => exact absurd rfl hvs
    | cons a t => rfl
  rcases hsk : storeGet s k with _ | rv
  · refine ⟨?_, ?_, ?_, ?_⟩
    · simp [rpushCmd, hsk, storeGet_insert_self, hvs']
    · simp [rpushCmd, hsk, storeGet_insert_self, hvs']
    · rcases hwk : storeGet w k with _ | q
      · simp [lpushCmd, hsk, storeGet_insert_self, hvs', hwk]
      · cases q with
        | nil => simp [lpushCmd, hsk, storeGet_insert_self, hvs', hwk]
        | cons i r => simp [lpushCmd, hsk, storeGet_insert_self, hvs', hwk]
    · intro q hwk
      cases q with
      | nil => simp [lpushCmd, hsk, storeGet_insert_self, hvs', hwk]
      | cons i r => simp [lpushCmd, hsk, storeGet_insert_self, hvs', hwk]
  · obtain ⟨L, hd⟩ := hk rv hsk
    refine ⟨?_, ?_, ?_, ?_⟩
    · simp [rpushCmd, hsk, hd, hvs']
    · simp [rpushCmd, hsk, hd, hvs']
    · rcases hwk : storeGet w k with _ | q
      · simp [lpushCmd, hsk, hd, hvs', hwk]
      · cases q with
        | nil => simp [lpushCmd, hsk, hd, hvs', hwk]
        | cons i r => simp [lpushCmd, hsk, hd, hvs', hwk]
    · intro q hwk
      cases q with
      | nil => simp [lpushCmd, hsk, hd, hvs', hwk]
      | cons i r => simp [lpushCmd, hsk, hd, hvs', hwk, storeGet_insert_self]

/-- Witness for `push_waiter_firing_discipline`: pushing one element with
two waiters `[3, 5]` queued fires exactly waiter 3 and leaves `[5]`. -/
theorem push_waiter_firing_discipline_witness :
    (rpushCmd 0 [] [("k", [3, 5])] "k" ["a"]).2.1 = [("k", [3, 5])]
    ∧ (rpushCmd 0 [] [("k", [3, 5])] "k" ["a"]).2.2.1 = []
    ∧ (lpushCmd 0 [] [("k", [3, 5])] "k" ["a"]).2.2.1 = [3]
    ∧ storeGet (lpushCmd 0 [] [("k", [3, 5])] "k" ["a"]).2.1 "k" = some [5] := by
  have h := push_waiter_firing_discipline 0 [] [("k", [3, 5])] "k" ["a"]
    (by decide) (fun rv hr => Option.noConfusion hr)
  exact ⟨h.1, h.2.1, (h.2.2.1).trans (by decide), (h.2.2.2 [3, 5] rfl).trans (by decide)⟩

/-! ## C5 — malformed arguments panic the dispatcher -/

/-- C5 counterexample: `GET` with no key, `SET` with fewer than three
arguments, `SET` with a non-integer millisecond token, and `LPOP` with a
non-integer count all make the dispatcher panic (out-of-bounds index or
failing `parse().unwrap()`, embedded as `none`) instead of producing the
claimed RESP simple-error reply. -/
theorem dispatcher_panics_on_malformed_args :
    process1 0 0 ([], []) ["get"] = none
    ∧ process1 0 0 ([], []) ["set", "k"] = none
    ∧ process1 0 0 ([], []) ["set", "k", "v", "px", "abc"] = none
    ∧ process1 0 0 ([], []) ["lpop", "k", "five"] = none := by
  refine ⟨rfl, rfl, rfl, rfl⟩

/-- C5 amended: only the RPUSH/LPUSH missing-value arity check is reported
as a RESP simple error with the session continuing; SET with fewer than
three arguments or a non-integer millisecond token, LPOP with a non-integer
count, and GET without a key argument instead panic the session task (the
embedding is `none` there), producing no reply at all. -/
theorem dispatcher_error_behaviour (now freshId : Nat) (s : Store) (w : WStore)
    (k : String) (h : storeGet s k = none) :
    (process1 now freshId (s, w) ["rpush", k]).map (fun r => r.2.2)
      = some "-ERR wrong number of arguments for command\r\n"
    ∧ (process1 now freshId (s, w) ["lpush", k]).map (fun r => r.2.2)
      = some "-ERR wrong number of arguments for command\r\n"
    ∧ process1 now freshId (s, w) ["get"] = none
    ∧ process1 now freshId (s, w) ["set", k] = none
    ∧ process1 now freshId (s, w) ["set", k, "v", "px", "abc"] = none
    ∧ process1 now freshId (s, w) ["lpop", k, "five"] = none := by
  refine ⟨?_, ?_, rfl, rfl, rfl, rfl⟩
  · have hr : process1 now freshId (s, w) ["rpush", k]
        = some ((rpushCmd now s w k []).1, (rpushCmd now s w k []).2.1,
            (rpushCmd now s w k []).2.2.2) := rfl
    rw [hr]
    simp [rpushCmd, h, storeGet_insert_self]
  · have hl : process1 now freshId (s, w) ["lpush", k]
        = some ((lpushCmd now s w k []).1, (lpushCmd now s w k []).2.1,
            (lpushCmd now s w k []).2.2.2) := rfl
    rw [hl]
    simp [lpushCmd, h, storeGet_insert_self]

/-- Witness for `dispatcher_error_behaviour` at the empty state. -/
theorem dispatcher_error_behaviour_witness :
    (process1 0 0 ([], []) ["rpush", "k"]).map (fun r => r.2.2)
      = some "-ERR wrong number of arguments for command\r\n"
    ∧ (process1 0 0 ([], []) ["lpush", "k"]).map (fun r => r.2.2)
      = some "-ERR wrong number of arguments for command\r\n"
    ∧ process1 0 0 ([], []) ["get"] = none
    ∧ process1 0 0 ([], []) ["set", "k"] = none
    ∧ process1 0 0 ([], []) ["set", "k", "v", "px", "abc"] = none
    ∧ process1 0 0 ([], []) ["lpop", "k", "five"] = none :=
  dispatcher_error_behaviour 0 0 [] [] "k" rfl

/-! ## C6 — GET passive expiry deletes the entry and stays nil -/

lemma getSeq_of_absent (nows : List Nat) (s : Store) (k : String)
    (h : storeGet s k = none) :
    getSeq nows s k = (s, nows.map (fun _ => nilReply)) := by
  induction nows with
  | nil => simp [getSeq]
  | cons n rest ih => simp [getSeq, getCmd, h, ih]

/-- C6: a `GET k` whose stored entry has an elapsed TTL relative to the call
instant replies with the nil bulk string and removes the entry within the
same critical section; afterwards every further `GET k` (at any instants)
keeps replying nil, as the key stays absent. -/
theorem get_passive_expiry_deletes_and_stays_nil (now : Nat) (s : Store)
    (k : String) (rv : RedisValue) (t : Nat)
    (h : storeGet s k = some rv) (ht : rv.ttl = some t)
    (hexp : rv.creation_time + t < now) :
    (getCmd now s k).2 = nilReply
    ∧ storeGet (getCmd now s k).1 k = none
    ∧ ∀ nows : List Nat,
        (getSeq nows (getCmd now s k).1 k).2 = nows.map (fun _ => nilReply) := by
  have hexpired : (rv.ttl.isSome && decide (rv.creation_time + rv.ttl.getD 0 < now))
      = true := by
    rw [ht]
    simpa using hexp
  have h1 : getCmd now s k = (storeRemove s k, nilReply) := by
    simp [getCmd, h, hexpired]
  refine ⟨by rw [h1], ?_, ?_⟩
  · rw [h1]
    exact storeGet_remove_self s k
  · intro nows
    rw [h1]
    rw [getSeq_of_absent nows (storeRemove s k) k (storeGet_remove_self s k)]

/-- Witness for `get_passive_expiry_deletes_and_stays_nil`: a key created at
instant 0 with a 1000 ms TTL, read at instant 2000 and twice afterwards. -/
theorem get_passive_expiry_witness :
    (getCmd 2000 [("foo", RedisValue.mk 0 (RedisType.Val "bar") (some 1000))] "foo").2
      = nilReply
    ∧ storeGet
        (getCmd 2000 [("foo", RedisValue.mk 0 (RedisType.Val "bar") (some 1000))] "foo").1
        "foo" = none
    ∧ (getSeq [2500, 9999]
        (getCmd 2000 [("foo", RedisValue.mk 0 (RedisType.Val "bar") (some 1000))] "foo").1
        "foo").2 = ["$-1\r\n", "$-1\r\n"] := by
  have h := get_passive_expiry_deletes_and_stays_nil 2000
    [("foo", RedisValue.mk 0 (RedisType.Val "bar") (some 1000))] "foo"
    (RedisValue.mk 0 (RedisType.Val "bar") (some 1000)) 1000 rfl rfl (by decide)
  exact ⟨h.1, h.2.1, (h.2.2 [2500, 9999]).trans (by decide)⟩

/-! ## C8 — draining a list through LPOP removes the key -/

lemma foldLpop_cons (s : Store) (k : String) (c : Nat) (cs : List Nat) :
    foldLpop s k (c :: cs) = foldLpop (lpopCore s k c).1 k cs := rfl

lemma foldLpop_absent (cs : List Nat) (s : Store) (k : String)
    (h : storeGet s k = none) : foldLpop s k cs = s := by
  induction cs generalizing s with
  | nil => rfl
  | cons c cs ih =>
    rw [foldLpop_cons, show (lpopCore s k c).1 = s from by simp [lpopCore, h]]
    exact ih s h

lemma foldLpop_drain (k : String) (cs : List Nat) :
    ∀ (s : Store) (rv : RedisValue) (L : List String),
      storeGet s k = some rv → rv.data = RedisType.List L → L ≠ [] →
      L.length ≤ cs.sum → storeGet (foldLpop s k cs) k = none := by
  induction cs with
  | nil =>
    intro s rv L h hd hL hlen
    simp only [List.sum_nil, Nat.le_zero] at hlen
    exact absurd (List.length_eq_zero.mp hlen) hL
  | cons c cs ih =>
    intro s rv L h hd hL hlen
    rw [foldLpop_cons]
    by_cases hrest : (L.drop c).isEmpty
    · have h1 : (lpopCore s k c).1 = storeRemove s k := by
        simp [lpopCore, h, hd, hrest]
      rw [h1, foldLpop_absent cs _ k (storeGet_remove_self s k)]
      exact storeGet_remove_self s k
    · have h1 : (lpopCore s k c).1
          = storeInsert s k (RedisValue.mk rv.creation_time (RedisType.List (L.drop c)) rv.ttl) := by
        simp [lpopCore, h, hd, hrest]
      rw [h1]
      refine ih _ _ (L.drop c) (storeGet_insert_self ..) rfl ?_ ?_
      · simpa [List.isEmpty_iff] using hrest
      · rw [List.length_drop]
        simp only [List.sum_cons] at hlen
        omega

/-- C8: any sequence of LPOP calls whose counts sum to at least the length
of the list stored at `k` drains the list and removes the key in the LPOP
that drained it: afterwards the key is absent, `LLEN k` replies `:0`,
`LRANGE k 0 -1` yields the empty array, and no keyspace entry for `k`
remains to be counted by `DBSIZE`. -/
theorem lpop_drain_removes_key (s : Store) (k : String) (rv : RedisValue)
    (L : List String) (cs : List Nat)
    (h : storeGet s k = some rv) (hd : rv.data = RedisType.List L)
    (hL : L ≠ []) (hcs : L.length ≤ cs.sum) :
    storeGet (foldLpop s k cs) k = none
    ∧ llenCmd (foldLpop s k cs) k = ":0\r\n"
    ∧ lrangeCmd (foldLpop s k cs) k 0 (-1) = Except.ok []
    ∧ (foldLpop s k cs).filter (fun p => p.1 == k) = [] := by
  have h0 := foldLpop_drain k cs s rv L h hd hL hcs
  exact ⟨h0, by simp [llenCmd, h0], by simp [lrangeCmd, h0],
    filter_key_eq_nil_of_get_none h0⟩

/-- Witness for `lpop_drain_removes_key`: `RPUSH list a b` followed by
`LPOP list` and `LPOP list 5`. -/
theorem lpop_drain_removes_key_witness :
    storeGet (foldLpop [("list", RedisValue.mk 0 (RedisType.List ["a", "b"]) none)]
        "list" [1, 5]) "list" = none
    ∧ llenCmd (foldLpop [("list", RedisValue.mk 0 (RedisType.List ["a", "b"]) none)]
        "list" [1, 5]) "list" = ":0\r\n"
    ∧ lrangeCmd (foldLpop [("list", RedisValue.mk 0 (RedisType.List ["a", "b"]) none)]
        "list" [1, 5]) "list" 0 (-1) = Except.ok []
    ∧ (foldLpop [("list", RedisValue.mk 0 (RedisType.List ["a", "b"]) none)]
        "list" [1, 5]).filter (fun p => p.1 == "list") = [] :=
  lpop_drain_removes_key [("list", RedisValue.mk 0 (RedisType.List ["a", "b"]) none)]
    "list" (RedisValue.mk 0 (RedisType.List ["a", "b"]) none) ["a", "b"] [1, 5]
    rfl rfl (by decide) (by decide)

/-! ## C7 — LRANGE conforms to the spec's clamping rules -/

/-- The LRANGE contract stated in the spec's own words (§4.3), as the
refinement companion of `lrangeSlice`: add the list length once to a
negative index, clamp `start` up to 0 and `stop` down to `length-1`, return
the empty array when `start > stop` and otherwise the inclusive slice
`[start, stop]`, here rendered with `drop`/`take`. -/
def specLrange (L : List String) (s e : Int) : List String :=
  let len : Int := L.length
  let s1 := max (if s < 0 then s + len else s) 0
  let e1 := min (if e < 0 then e + len else e) (len - 1)
  if s1 > e1 then [] else (L.drop s1.toNat).take (e1 - s1 + 1).toNat

lemma range_map_getD_eq_drop_take (L : List String) (d : String) (a n : Nat)
    (h : a + n ≤ L.length) :
    (List.range n).map (fun x => L.getD (a + x) d) = (L.drop a).take n := by
  apply List.ext_getElem
  · simp only [List.length_map, List.length_range, List.length_take, List.length_drop]
    omega
  · intro i h1 h2
    simp only [List.length_map, List.length_range] at h1
    have hin : a + i < L.length := by omega
    simp only [List.getElem_map, List.getElem_range, List.getElem_take, List.getElem_drop]
    exact List.getD_eq_getElem L d hin

lemma lrangeSlice_eq_specLrange (L : List String) (s e : Int) :
    lrangeSlice L s e = specLrange L s e := by
  simp only [lrangeSlice, specLrange]
  set a := max (if s < 0 then s + (L.length : Int) else s) 0 with ha
  set b := min (if e < 0 then e + (L.length : Int) else e) ((L.length : Int) - 1) with hb
  by_cases h : a > b
  · rw [if_pos h, if_pos h]
  · rw [if_neg h, if_neg h]
    have ha0 : 0 ≤ a := le_max_right _ _
    have hb1 : b ≤ (L.length : Int) - 1 := min_le_right _ _
    have hcount : (b - a + 1).toNat = b.toNat - a.toNat + 1 := by omega
    rw [hcount]
    apply range_map_getD_eq_drop_take
    omega

lemma lrangeSlice_full (L : List String) : lrangeSlice L 0 (-1) = L := by
  rw [lrangeSlice_eq_specLrange]
  simp only [specLrange]
  norm_num

/-- C7: `LRANGE` on a stored list returns exactly the slice described by the
spec's clamping rules (`specLrange`): negative indices get the length added
once, `start` is clamped up to 0 and `stop` down to `length-1`, and
`start > stop` yields the empty array; a missing key yields an empty array,
not an error; and `LRANGE k 0 -1` returns the stored list in full. -/
theorem lrange_conforms_to_spec_clamping :
    (∀ (st : Store) (k : String) (rv : RedisValue) (L : List String) (s e : Int),
      storeGet st k = some rv → rv.data = RedisType.List L →
      lrangeCmd st k s e = Except.ok (specLrange L s e))
    ∧ (∀ (st : Store) (k : String) (s e : Int),
      storeGet st k = none → lrangeCmd st k s e = Except.ok [])
    ∧ (∀ (st : Store) (k : String) (rv : RedisValue) (L : List String),
      storeGet st k = some rv → rv.data = RedisType.List L →
      lrangeCmd st k 0 (-1) = Except.ok L) := by
  refine ⟨?_, ?_, ?_⟩
  · intro st k rv L s e h hd
    simp [lrangeCmd, h, hd, lrangeSlice_eq_specLrange]
  · intro st k s e h
    simp [lrangeCmd, h]
  · intro st k rv L h hd
    simp [lrangeCmd, h, hd, lrangeSlice_full]

/-- Witness for `lrange_conforms_to_spec_clamping` on the list
`["a", "b", "c"]` stored at `k`. -/
theorem lrange_conforms_to_spec_clamping_witness :
    lrangeCmd [("k", RedisValue.mk 0 (RedisType.List ["a", "b", "c"]) none)] "k" (-2) (-1)
      = Except.ok ["b", "c"]
    ∧ lrangeCmd [("k", RedisValue.mk 0 (RedisType.List ["a", "b", "c"]) none)] "nope" 0 5
      = Except.ok []
    ∧ lrangeCmd [("k", RedisValue.mk 0 (RedisType.List ["a", "b", "c"]) none)] "k" 0 (-1)
      = Except.ok ["a", "b", "c"] :=
  ⟨(lrange_conforms_to_spec_clamping.1
      [("k", RedisValue.mk 0 (RedisType.List ["a", "b", "c"]) none)] "k"
      (RedisValue.mk 0 (RedisType.List ["a", "b", "c"]) none) ["a", "b", "c"]
      (-2) (-1) rfl rfl).trans
    (congrArg Except.ok (by decide : specLrange ["a", "b", "c"] (-2) (-1) = ["b", "c"])),
   lrange_conforms_to_spec_clamping.2.1
      [("k", RedisValue.mk 0 (RedisType.List ["a", "b", "c"]) none)] "nope" 0 5 (by decide),
   lrange_conforms_to_spec_clamping.2.2
      [("k", RedisValue.mk 0 (RedisType.List ["a", "b", "c"]) none)] "k"
      (RedisValue.mk 0 (RedisType.List ["a", "b", "c"]) none) ["a", "b", "c"] rfl rfl⟩
